import Mathlib

/-!
Verification of the data-normalization and KPI pipeline of
`Ethereum-Capital-Flows` (`app.py`), a single-file dashboard that loads CSV
exports, normalizes columns, aggregates a monthly panel and computes KPIs
(growth %, shares, Pearson correlation, rate-direction probabilities).

The numeric cells of the dataframes are modelled over `ℚ` (the float
arithmetic performed by the code stays exact at the inputs examined here);
a pandas `NaN` cell is modelled as `Option.none`.  DataFrame columns are
modelled as lists of cell values in row order, and string cells as `String`
or `List Char`.
-/

namespace EthFlows

/-! ## Shared utilities: character lists, splitting, digits, dates -/

/-- Split a character list at every occurrence of `sep` (model of Python
`str.split` / pandas delimiter handling used below).  Always returns at
least one (possibly empty) part. -/
def splitOnChar (sep : Char) : List Char → List (List Char)
  | [] => [[]]
  | c :: cs =>
    let rest := splitOnChar sep cs
    if c = sep then [] :: rest
    else
      match rest with
      | [] => [[c]]
      | p :: ps => (c :: p) :: ps

/-- Parse a non-empty all-digit character list as a natural number. -/
def parseDigits (cs : List Char) : Option ℕ :=
  if cs.isEmpty then none
  else if cs.all Char.isDigit then
    some (cs.foldl (fun n c => 10 * n + (c.toNat - 48)) 0)
  else none

/-- A calendar date, standing for a (tz-naive) pandas `Timestamp` at date
resolution. -/
structure Date where
  y : ℕ
  m : ℕ
  d : ℕ
deriving DecidableEq, Repr

/-- Totally ordered key of a `Date`; timestamps compare chronologically and
for in-range dates (month ≤ 12, day ≤ 31) this key realizes that order. -/
def dateKey (dt : Date) : ℕ := dt.y * 10000 + dt.m * 100 + dt.d

/-- Model of `pd.to_datetime` on the date strings occurring in the data files:
`"YYYY-MM-DD"` parses to that date, a month-resolution `"YYYY-MM"` string
parses to the first of the month; anything else fails. -/
def parseDate (s : String) : Option Date :=
  match (splitOnChar '-' s.toList).map parseDigits with
  | [some y, some m] =>
    if 1 ≤ m ∧ m ≤ 12 then some ⟨y, m, 1⟩ else none
  | [some y, some m, some d] =>
    if (1 ≤ m ∧ m ≤ 12) ∧ (1 ≤ d ∧ d ≤ 31) then some ⟨y, m, d⟩ else none
  | _ => none

/-- Model of `pd.to_datetime(s, format="%Y-%m", errors="coerce")` (app.py line 178):
only `"YYYY-MM"` strings parse, to the first of the month; anything else
(including full `"YYYY-MM-DD"` dates) coerces to `NaT`, i.e. `none`. -/
def parseYM (s : String) : Option Date :=
  match (splitOnChar '-' s.toList).map parseDigits with
  | [some y, some m] =>
    if 1 ≤ m ∧ m ≤ 12 then some ⟨y, m, 1⟩ else none
  | _ => none

/-! ## C1 — growth-percent KPI (app.py lines 401 and 564–565) -/

/-- Growth-percent KPI:
`100 * (series.iloc[-1] - series.iloc[0]) / max(series.iloc[0], 1e-9)`
(app.py line 401 for `TOTAL_VOLUME_BILLIONS`, lines 564–565 for
`USERS_MILLIONS` / `AVG_FEE_USD`).  The series is the column in row order;
`iloc[0]`/`iloc[-1]` are its first and last entries. -/
def growth (xs : List ℚ) : ℚ :=
  100 * (xs.getLast?.getD 0 - xs.head?.getD 0) /
    max (xs.head?.getD 0) (1 / 1000000000)

/-! ## C2 — probability-column rescaling (app.py 753–756 and 1007–1011) -/

/-- Model of `np.nanpercentile(xs, 95)` over the finite values `xs`, with numpy's
default linear interpolation between order statistics; `none` when the
input is empty (the code only calls it on non-empty data). -/
def percentile95 (xs : List ℚ) : Option ℚ :=
  if xs.isEmpty then none
  else
    let s := List.insertionSort (· ≤ ·) xs
    let pos : ℚ := 95 * ((s.length : ℚ) - 1) / 100
    let i : ℕ := (⌊pos⌋).toNat
    let lo := s.getD i 0
    let hi := s.getD (i + 1) lo
    some (lo + (pos - (i : ℚ)) * (hi - lo))

/-- Section-8 probability rescale (app.py 753–756):
`if r["PROB"].dropna().gt(1).any(): r["PROB"] = r["PROB"] / 100.0`.
The column is a list of optional rationals (`none` = `NaN`). -/
def probRescale8 (xs : List (Option ℚ)) : List (Option ℚ) :=
  if (xs.filterMap id).any (fun v => decide (1 < v)) then
    xs.map (Option.map (· / 100))
  else xs

/-- The `df_rates` probability rescale (app.py 1007–1011):
`p95 = np.nanpercentile(PROB.dropna(), 95)` when some value is finite;
`if pd.notna(p95) and p95 > 1.5: PROB = PROB / 100.0`. -/
def probRescaleRates (xs : List (Option ℚ)) : List (Option ℚ) :=
  match percentile95 (xs.filterMap id) with
  | none => xs
  | some p => if 3 / 2 < p then xs.map (Option.map (· / 100)) else xs

/-! ## C1 theorems -/

/-- C1, counterexample.  The claim asserts that on the two-point series
`[0, 50]` the baseline-clamp yields `5000.0`, and that the KPI matches
`(last/first − 1) × 100` whenever `first > 0`.  Both parts fail on the
code: the clamp floor is `1e-9` (not `1`), so `growth [0, 50]` is
`5 × 10¹²`, and for `0 < first < 1e-9` (here `first = 1e-10`) the clamp is
still active, so the KPI differs from `(last/first − 1) × 100`. -/
theorem C1_counterexample :
    growth [0, 50] ≠ 5000 ∧
    growth [1 / 10000000000, 1] ≠ (1 / (1 / 10000000000) - 1) * 100 := by
  constructor
  · show 100 * (50 - 0) / max (0 : ℚ) (1 / 1000000000) ≠ 5000
    rw [max_eq_right (by norm_num)]
    norm_num
  · show 100 * (1 - 1 / 10000000000) / max (1 / 10000000000 : ℚ) (1 / 1000000000) ≠
      (1 / (1 / 10000000000) - 1) * 100
    rw [max_eq_right (by norm_num)]
    norm_num

/-- C1, amended.  The growth-percent KPI equals
`((last − first) / max(first, 1e-9)) × 100`; it matches the spec formula
`(last/first − 1) × 100` on every two-point series whose first entry is at
least `1e-9`; `[100, 150]` yields `50`, and for `[0, 50]` the
baseline-clamp behavior yields `5 × 10¹²` (the clamp floor is `1e-9`, not
`1`). -/
theorem C1_growth_formula :
    (∀ a b : ℚ, 1 / 1000000000 ≤ a → growth [a, b] = (b / a - 1) * 100) ∧
    growth [100, 150] = 50 ∧
    growth [0, 50] = 5000000000000 := by
  refine ⟨?_, ?_, ?_⟩
  · intro a b h
    have ha : (0 : ℚ) < a := lt_of_lt_of_le (by norm_num) h
    have hmax : max a (1 / 1000000000 : ℚ) = a := max_eq_left h
    show 100 * (b - a) / max a (1 / 1000000000) = (b / a - 1) * 100
    rw [hmax]
    field_simp
    ring
  · show 100 * (150 - 100) / max (100 : ℚ) (1 / 1000000000) = 50
    rw [max_eq_left (by norm_num)]
    norm_num
  · show 100 * (50 - 0) / max (0 : ℚ) (1 / 1000000000) = 5000000000000
    rw [max_eq_right (by norm_num)]
    norm_num

/-- C1 witness: the amended formula instantiated at the spec's own example
`[100, 150]`. -/
theorem C1_growth_formula_witness :
    (1 / 1000000000 : ℚ) ≤ 100 ∧ growth [100, 150] = (150 / 100 - 1) * 100 :=
  ⟨by norm_num, C1_growth_formula.1 100 150 (by norm_num)⟩

/-! ## C2 theorems -/

/-- C2, counterexample.  The claim says a probability column is divided by
100 exactly when its observed maximum exceeds `1.5`.  Both rescalers
refute this: the section-8 rescaler divides the column `[1.2]` (maximum
`1.2 ≤ 1.5`, so the claim says "unchanged") because its actual test is
"some value `> 1`"; and the `df_rates` rescaler leaves the column
`[0, 1.57]` (maximum `1.57 > 1.5`, so the claim says "divide by 100")
unchanged, because its actual test is on the 95th percentile, which
interpolates to `0.95 × 1.57 = 1.4915 ≤ 1.5`. -/
theorem C2_counterexample :
    probRescale8 [some (6 / 5)] = [some (6 / 500)] ∧
    probRescaleRates [some 0, some (157 / 100)] = [some 0, some (157 / 100)] := by
  constructor
  · have h : ([some ((6 : ℚ) / 5)].filterMap id).any (fun v => decide (1 < v)) = true := by
      norm_num [List.filterMap_cons]
    simp only [probRescale8, h, if_true, List.map_cons, List.map_nil, Option.map_some]
    norm_num
  · have hp : percentile95 ([some (0 : ℚ), some (157 / 100)].filterMap id) =
        some (2983 / 2000) := by
      norm_num [percentile95, List.filterMap_cons, List.insertionSort, List.orderedInsert]
    rw [probRescaleRates, hp]
    norm_num

/-- C2, amended.  The section-8 normalizer divides every value by 100
exactly when some finite value exceeds `1` (and leaves the column
unchanged when all finite values are `≤ 1`); the `df_rates` normalizer
divides by 100 when the 95th percentile of the finite values exceeds
`1.5`.  The spec's examples hold for single-value columns under both
rescalers: `[87]` becomes `[0.87]` and `[0.87]` is unchanged. -/
theorem C2_rescale :
    (∀ xs : List (Option ℚ), (∃ v ∈ xs.filterMap id, 1 < v) →
      probRescale8 xs = xs.map (Option.map (· / 100))) ∧
    (∀ xs : List (Option ℚ), (∀ v ∈ xs.filterMap id, v ≤ 1) →
      probRescale8 xs = xs) ∧
    probRescale8 [some 87] = [some (87 / 100)] ∧
    probRescaleRates [some 87] = [some (87 / 100)] ∧
    probRescale8 [some (87 / 100)] = [some (87 / 100)] ∧
    probRescaleRates [some (87 / 100)] = [some (87 / 100)] := by
  refine ⟨?_, ?_, ?_, ?_, ?_, ?_⟩
  · intro xs h
    have : (xs.filterMap id).any (fun v => decide (1 < v)) = true := by
      rw [List.any_eq_true]
      rcases h with ⟨v, hv, h1⟩
      exact ⟨v, hv, by simpa using h1⟩
    simp [probRescale8, this]
  · intro xs h
    have : (xs.filterMap id).any (fun v => decide (1 < v)) = false := by
      rw [List.any_eq_false]
      intro v hv
      simpa using h v hv
    simp [probRescale8, this]
  · have h : ([some (87 : ℚ)].filterMap id).any (fun v => decide (1 < v)) = true := by
      norm_num [List.filterMap_cons]
    simp only [probRescale8, h, if_true, List.map_cons, List.map_nil, Option.map_some]
    norm_num
  · have hp : percentile95 ([some (87 : ℚ)].filterMap id) = some 87 := by
      norm_num [percentile95, List.filterMap_cons, List.insertionSort, List.orderedInsert]
    rw [probRescaleRates, hp]
    norm_num
  · have h : ([some ((87 : ℚ) / 100)].filterMap id).any (fun v => decide (1 < v)) = false := by
      norm_num [List.filterMap_cons]
    simp [probRescale8, h]
    intro hc
    exact absurd hc (by norm_num)
  · have hp : percentile95 ([some ((87 : ℚ) / 100)].filterMap id) = some (87 / 100) := by
      norm_num [percentile95, List.filterMap_cons, List.insertionSort, List.orderedInsert]
    rw [probRescaleRates, hp]
    norm_num

/-- C2 witness: the amended rescale conditions instantiated at the spec's
87-percent column (some value exceeds 1, so the column is rescaled) and at
the already-fractional column `[0.87]` (all values `≤ 1`, unchanged). -/
theorem C2_rescale_witness :
    probRescale8 [some 87, none] = [some 87, none].map (Option.map (· / 100)) ∧
    probRescale8 [some (3 / 4)] = [some (3 / 4)] :=
  ⟨C2_rescale.1 [some 87, none] ⟨87, by simp, by norm_num⟩,
   C2_rescale.2.1 [some (3 / 4)] (by intro v hv; simp at hv; rw [hv]; norm_num)⟩

/-! ## C3 / C6 — the CSV loaders `read_csv` (app.py 74–82) and
`s8_read_csv` (app.py 594–602) -/

/-- Decidable equality for `Except`, used to evaluate loader results on
concrete inputs. -/
instance exceptDecEq {ε α : Type} [DecidableEq ε] [DecidableEq α] :
    DecidableEq (Except ε α)
  | .ok a, .ok b =>
    if h : a = b then isTrue (by rw [h])
    else isFalse (by intro he; cases he; exact h rfl)
  | .ok _, .error _ => isFalse (by intro h; cases h)
  | .error _, .ok _ => isFalse (by intro h; cases h)
  | .error e, .error f =>
    if h : e = f then isTrue (by rw [h])
    else isFalse (by intro he; cases he; exact h rfl)

/-- A raw parsed dataframe: its column names and the raw string cells of
its `MONTH` column (the other columns play no role in the claims about the
loaders and are carried abstractly by `cols`). -/
structure RawTable where
  cols : List String
  monthCells : List String
deriving DecidableEq, Repr

/-- The shape of `read_csv` output once `MONTH` has been parsed: all original columns
plus the parsed `MONTH` values, in row order.  For inputs without a
`MONTH` column (or with `parse_month=False`) the untouched raw cells are
not tracked and `months` is empty. -/
structure MonthTable where
  cols : List String
  months : List Date
deriving DecidableEq, Repr

/-- What the file system / pandas front end can hand the loaders: the file
is absent, present but unparseable (ragged or empty content, on which
`pd.read_csv` raises `ParserError`/`EmptyDataError`), or parses to a raw
table. -/
inductive CsvSource where
  | missing
  | unparseable
  | parsed (t : RawTable)
deriving DecidableEq, Repr

/-- Model of `pd.to_datetime(df["MONTH"])` (app.py line 81): no `errors="coerce"`,
so a single unparseable cell raises; otherwise every cell parses in row
order. -/
def toDatetimeStrict (cells : List String) : Except String (List Date) :=
  if cells.all (fun c => (parseDate c).isSome) then .ok (cells.filterMap parseDate)
  else .error "DateParseError"

/-- Loader `read_csv` (app.py 74–82): a missing file yields an empty dataframe;
otherwise `pd.read_csv` runs unguarded (so unparseable content raises),
and when `parse_month` holds and a `MONTH` column exists it is parsed with
an unguarded `pd.to_datetime`.  No truncation to month start and no
sorting happen here. -/
def read_csv (src : CsvSource) (parse_month : Bool) : Except String MonthTable :=
  match src with
  | .missing => .ok ⟨[], []⟩
  | .unparseable => .error "ParserError"
  | .parsed t =>
    if parse_month && t.cols.contains "MONTH" then
      match toDatetimeStrict t.monthCells with
      | .ok ms => .ok ⟨t.cols, ms⟩
      | .error e => .error e
    else .ok ⟨t.cols, []⟩

/-- The unguarded body of `s8_read_csv` (app.py 597–600): `pd.read_csv`
with `sep=None, engine="python", on_bad_lines="skip"` (plus the
single-column `;` retry, which only changes which parse is returned); a
missing file raises `FileNotFoundError`, unreadable content raises. -/
def pdReadAuto (src : CsvSource) : Except String RawTable :=
  match src with
  | .missing => .error "FileNotFoundError"
  | .unparseable => .error "ParserError"
  | .parsed t => .ok t

/-- Loader `s8_read_csv` (app.py 594–602): the body above wrapped in
`try: ... except Exception: return pd.DataFrame()`, hence total. -/
def s8_read_csv (src : CsvSource) : Except String RawTable :=
  match pdReadAuto src with
  | .ok t => .ok t
  | .error _ => .ok ⟨[], []⟩

/-- Helper `s8_month_start` (app.py 604–617): coerce a timestamp to the
first-of-month timestamp (`.dt.to_period("M").dt.to_timestamp(how="start")`). -/
def s8_month_start (dt : Date) : Date := ⟨dt.y, dt.m, 1⟩

/-! ## C3 theorems -/

/-- C3, counterexample.  The claim says every CSV loader maps a missing
file or unparseable content to an empty table and never raises.  `read_csv`
(app.py 74–82) has no `try/except`: a present-but-unparseable file
propagates pandas' `ParserError`, and a parseable file whose `MONTH`
column holds an invalid date string makes the unguarded `pd.to_datetime`
raise. -/
theorem C3_counterexample :
    read_csv CsvSource.unparseable true = .error "ParserError" ∧
    (read_csv (CsvSource.parsed ⟨["MONTH"], ["garbage"]⟩) true).isOk = false := by
  constructor
  · rfl
  · decide

/-- C3, amended.  `s8_read_csv` is total: every source yields a table, and
both a missing file and unparseable content yield the empty table.
`read_csv`, by contrast, yields an empty table only for a missing file and
propagates the exception on unparseable content. -/
theorem C3_loader_totality :
    read_csv CsvSource.missing true = .ok ⟨[], []⟩ ∧
    (read_csv CsvSource.unparseable true).isOk = false ∧
    (∀ src : CsvSource, (s8_read_csv src).isOk = true) ∧
    s8_read_csv CsvSource.missing = .ok ⟨[], []⟩ ∧
    s8_read_csv CsvSource.unparseable = .ok ⟨[], []⟩ := by
  refine ⟨rfl, rfl, ?_, rfl, rfl⟩
  intro src
  cases src <;> rfl

/-! ## C6 theorems -/

/-- Helper: under a totality assumption, `filterMap` is the pointwise
`map` of the forced values. -/
theorem filterMap_eq_map_getD {α β : Type} (f : α → Option β) (d : β) :
    ∀ l : List α, (∀ c ∈ l, (f c).isSome = true) →
      l.filterMap f = l.map (fun c => (f c).getD d) := by
  intro l
  induction l with
  | nil => intro _; rfl
  | cons a l ih =>
    intro h
    have ha := h a (List.mem_cons_self a l)
    rcases Option.isSome_iff_exists.mp ha with ⟨b, hb⟩
    simp [List.filterMap_cons, hb, ih (fun c hc => h c (List.mem_cons_of_mem a hc))]

/-- C6, counterexample.  The claim says `read_csv` coerces each `MONTH`
value to the first-of-month timestamp and returns rows sorted ascending by
`MONTH`.  On the file with `MONTH` cells `["2025-07-15", "2025-06-20"]`
the loader returns the full dates in file order: the first output month
has day `15 ≠ 1` (no truncation) and precedes a chronologically earlier
month (no sorting). -/
theorem C6_counterexample :
    read_csv (CsvSource.parsed ⟨["MONTH", "X"], ["2025-07-15", "2025-06-20"]⟩) true =
      .ok ⟨["MONTH", "X"], [⟨2025, 7, 15⟩, ⟨2025, 6, 20⟩]⟩ ∧
    Date.d ⟨2025, 7, 15⟩ ≠ 1 ∧
    dateKey ⟨2025, 6, 20⟩ < dateKey ⟨2025, 7, 15⟩ := by
  refine ⟨?_, by decide, by decide⟩
  decide

/-- C6, amended.  `read_csv` keeps all original columns and parses each
`MONTH` cell in place, preserving row order; it does not truncate a full
date to its month start and does not sort (month-resolution `"YYYY-MM"`
cells still land on the first of the month, because parsing them yields
that date).  Truncation to month start is performed only by
`s8_month_start`, which maps any date to day 1 of its own year and month. -/
theorem C6_month :
    (∀ dt : Date, (s8_month_start dt).d = 1 ∧ (s8_month_start dt).y = dt.y ∧
      (s8_month_start dt).m = dt.m) ∧
    (∀ t : RawTable, t.cols.contains "MONTH" = true →
      (∀ c ∈ t.monthCells, (parseDate c).isSome = true) →
      read_csv (.parsed t) true =
        .ok ⟨t.cols, t.monthCells.map (fun c => (parseDate c).getD ⟨0, 0, 0⟩)⟩) := by
  constructor
  · intro dt
    exact ⟨rfl, rfl, rfl⟩
  · intro t hcol hall
    have hAll : t.monthCells.all (fun c => (parseDate c).isSome) = true :=
      List.all_eq_true.mpr hall
    simp only [read_csv, hcol, Bool.and_true, Bool.and_self, if_true,
      toDatetimeStrict, hAll, Bool.true_and]
    rw [filterMap_eq_map_getD parseDate ⟨0, 0, 0⟩ t.monthCells hall]

/-- C6 witness: the amended parsing behavior at a concrete two-row file
with month-resolution cells, which land on the first of each month in file
order. -/
theorem C6_month_witness :
    read_csv (.parsed ⟨["MONTH"], ["2025-06", "2025-07"]⟩) true =
      .ok ⟨["MONTH"], [⟨2025, 6, 1⟩, ⟨2025, 7, 1⟩]⟩ := by
  have h := C6_month.2 ⟨["MONTH"], ["2025-06", "2025-07"]⟩ (by decide) (by decide)
  rw [h]
  decide

/-! ## C4 — correlation KPI (app.py 524–529) -/

/-- Mean of a numeric column. -/
def colMean (xs : List ℚ) : ℚ := xs.sum / xs.length

/-- Centered cross-product sum `Σ (xᵢ − x̄)(yᵢ − ȳ)`; `np.corrcoef`'s
Pearson r is this divided by `√(corrDen xs · corrDen ys)`. -/
def corrNum (xs ys : List ℚ) : ℚ :=
  ((xs.zip ys).map (fun p => (p.1 - colMean xs) * (p.2 - colMean ys))).sum

/-- Centered square sum `Σ (xᵢ − x̄)²`. -/
def corrDen (xs : List ℚ) : ℚ := (xs.map (fun a => (a - colMean xs) ^ 2)).sum

/-- The value of a correlation computation, kept in exact form:
`nan` records whether the float result is `NaN`; otherwise the result is
`num / √(denx · deny)`.  (The square root of a rational need not be
rational, so the value is kept as this triple.) -/
structure CorrVal where
  nan : Bool
  num : ℚ
  denx : ℚ
  deny : ℚ
deriving DecidableEq, Repr

/-- The correlation value equals `1.0`:
`num / √(denx·deny) = 1 ⟺ 0 < num ∧ num² = denx·deny` (and not `NaN`). -/
def CorrVal.isOne (c : CorrVal) : Bool :=
  !c.nan && decide (0 < c.num) && decide (c.num ^ 2 = c.denx * c.deny)

/-- Model of `np.corrcoef(x, y)[0, 1]` on two equal-length columns with `NaN`s
modelled as `none`: any missing value poisons the means and yields `NaN`,
as does a zero variance in either column (0/0); otherwise the Pearson
coefficient `corrNum / √(corrDen·corrDen)` results. -/
def npCorrcoef (xs ys : List (Option ℚ)) : CorrVal :=
  if xs.any Option.isNone || ys.any Option.isNone then ⟨true, 0, 0, 0⟩
  else
    let a := xs.filterMap id
    let b := ys.filterMap id
    ⟨decide (corrDen a = 0) || decide (corrDen b = 0), corrNum a b, corrDen a, corrDen b⟩

/-- The correlation KPI (app.py 524–529):
`np.corrcoef(price, activity)[0,1] if len(df_eth) > 1 else np.nan`,
where both columns come from the same dataframe (`len(df_eth)` is the
column length). -/
def corr (xs ys : List (Option ℚ)) : CorrVal :=
  if xs.length ≤ 1 then ⟨true, 0, 0, 0⟩ else npCorrcoef xs ys

/-- Modelled from the spec: "Pearson correlation coefficient between two
numeric series after pairwise dropping of missing values; requires at
least 2 paired observations, otherwise reported as NaN."  Stated only to
compare the claimed behavior with `corr` above. -/
def pearsonPairwiseSpec (xs ys : List (Option ℚ)) : CorrVal :=
  let pairs := (xs.zip ys).filterMap
    (fun p => p.1.bind (fun a => p.2.map (fun b => (a, b))))
  if pairs.length < 2 then ⟨true, 0, 0, 0⟩
  else
    let a := pairs.map Prod.fst
    let b := pairs.map Prod.snd
    ⟨decide (corrDen a = 0) || decide (corrDen b = 0), corrNum a b, corrDen a, corrDen b⟩

/-! ## C4 theorems -/

/-- Zipping a list with itself pairs each element with itself. -/
theorem zip_self_eq_map {α : Type} : ∀ xs : List α, xs.zip xs = xs.map (fun a => (a, a))
  | [] => rfl
  | a :: xs => by simp [List.zip_cons_cons, zip_self_eq_map xs]

/-- On identical columns the centered cross-product sum is the centered
square sum. -/
theorem corrNum_self (xs : List ℚ) : corrNum xs xs = corrDen xs := by
  unfold corrNum corrDen
  rw [zip_self_eq_map, List.map_map]
  have hfun : ((fun p : ℚ × ℚ => (p.1 - colMean xs) * (p.2 - colMean xs)) ∘ fun a => (a, a)) =
      fun a => (a - colMean xs) ^ 2 := by
    funext a
    simp [Function.comp]
    ring
  rw [hfun]

/-- A column with two distinct entries has positive centered square sum. -/
theorem corrDen_pos {xs : List ℚ} {a b : ℚ} (ha : a ∈ xs) (hb : b ∈ xs)
    (hab : a ≠ b) : 0 < corrDen xs := by
  have key : ∀ x ∈ xs, x ≠ colMean xs → 0 < corrDen xs := by
    intro x hx hxm
    have hx0 : x - colMean xs ≠ 0 := sub_ne_zero.mpr hxm
    have hx2 : 0 < (x - colMean xs) ^ 2 :=
      lt_of_le_of_ne (sq_nonneg _) (Ne.symm (pow_ne_zero 2 hx0))
    have hmem : (x - colMean xs) ^ 2 ∈ xs.map (fun a => (a - colMean xs) ^ 2) :=
      List.mem_map_of_mem _ hx
    have hle := List.single_le_sum
      (fun y hy => by
        rcases List.mem_map.mp hy with ⟨c, _, rfl⟩
        exact sq_nonneg _)
      _ hmem
    exact lt_of_lt_of_le hx2 hle
  have hne : a ≠ colMean xs ∨ b ≠ colMean xs := by
    by_contra hcon
    push_neg at hcon
    exact hab (hcon.1.trans hcon.2.symm)
  rcases hne with h | h
  · exact key a ha h
  · exact key b hb h

/-- C4, counterexample.  The claim says the correlation KPI pairwise-drops
missing values.  On `x = [1, 2, 3]`, `y = [1, 2, NaN]` the pairwise-dropped
Pearson coefficient of the spec is `1.0` (two paired observations `(1,1)`,
`(2,2)`), but the code's `np.corrcoef` call propagates the `NaN` and the
KPI is `NaN`. -/
theorem C4_counterexample :
    (corr [some 1, some 2, some 3] [some 1, some 2, none]).nan = true ∧
    CorrVal.isOne (pearsonPairwiseSpec [some 1, some 2, some 3] [some 1, some 2, none]) =
      true := by
  constructor
  · decide
  · have hpairs : (([some (1 : ℚ), some 2, some 3].zip [some (1 : ℚ), some 2, none]).filterMap
        (fun p => p.1.bind (fun a => p.2.map (fun b => (a, b))))) = [(1, 1), (2, 2)] := by
      decide
    unfold pearsonPairwiseSpec
    rw [hpairs]
    norm_num [corrNum, corrDen, colMean, CorrVal.isOne, List.zip_cons_cons]

/-- C4, amended.  The correlation KPI computes Pearson correlation on the
full columns without dropping missing values: with at most one row it is
`NaN`; any missing value in either column makes it `NaN` (hence fewer than
2 paired finite observations still give `NaN`); and on a finite
(missement-free) non-constant series its correlation with itself is
exactly `1`. -/
theorem C4_corr :
    (∀ xs ys : List (Option ℚ), xs.length ≤ 1 → (corr xs ys).nan = true) ∧
    (∀ xs ys : List (Option ℚ),
      (xs.any Option.isNone || ys.any Option.isNone) = true → (corr xs ys).nan = true) ∧
    (∀ xs : List ℚ, 2 ≤ xs.length → (∃ a ∈ xs, ∃ b ∈ xs, a ≠ b) →
      CorrVal.isOne (corr (xs.map some) (xs.map some)) = true) := by
  refine ⟨?_, ?_, ?_⟩
  · intro xs ys h
    unfold corr
    rw [if_pos h]
  · intro xs ys h
    unfold corr
    split
    · rfl
    · unfold npCorrcoef
      rw [if_pos h]
  · intro xs hlen hne
    rcases hne with ⟨a, ha, b, hb, hab⟩
    have hguard : ¬((xs.map some).length ≤ 1) := by
      rw [List.length_map]
      omega
    have hnone : ((xs.map some).any Option.isNone || (xs.map some).any Option.isNone) = false := by
      simp
    have hfm : (xs.map some).filterMap id = xs := by
      rw [List.filterMap_map]
      simp
    have hd : 0 < corrDen xs := corrDen_pos ha hb hab
    unfold corr npCorrcoef
    rw [if_neg hguard, if_neg (by rw [hnone]; exact Bool.false_ne_true), hfm]
    simp [CorrVal.isOne, corrNum_self, hd, hd.ne', sq]

/-- C4 witness: the amended statements instantiated at concrete columns:
the empty dataframe gives `NaN`, a column containing `NaN` gives `NaN`,
and the non-constant series `[1, 2]` has self-correlation `1`. -/
theorem C4_corr_witness :
    (corr [] []).nan = true ∧
    (corr [some 1, none] [some 1, some 2]).nan = true ∧
    CorrVal.isOne (corr [some 1, some 2] [some 1, some 2]) = true := by
  refine ⟨C4_corr.1 [] [] (by decide), C4_corr.2.1 _ _ (by decide), ?_⟩
  have h := C4_corr.2.2 [1, 2] (by decide) ⟨1, by decide, 2, by decide, by norm_num⟩
  exact h

/-! ## C5 — delimiter detection (app.py 152–154 and 900–902) -/

/-- The delimiter sniff shared by `load_active_activity` (app.py 152–154)
and `_read_csv_smart` (app.py 900–902): read the first 4096 characters of
the file and pick `';'` iff it strictly outnumbers `','` there:
`";" if head.count(";") > head.count(",") else ","`. -/
def default_sep (file : List Char) : Char :=
  let head := file.take 4096
  if head.count ',' < head.count ';' then ';' else ','

/-- The function `splitOnChar` never returns the empty list of parts. -/
theorem splitOnChar_ne_nil (sep : Char) : ∀ cs : List Char, splitOnChar sep cs ≠ []
  | [] => by simp [splitOnChar]
  | c :: cs => by
    unfold splitOnChar
    split
    · simp
    · cases h : splitOnChar sep cs with
      | nil => simp
      | cons p ps => simp [h]

/-- A list that splits into at least two parts contains the separator. -/
theorem mem_of_two_le_splitOnChar (sep : Char) :
    ∀ cs : List Char, 2 ≤ (splitOnChar sep cs).length → sep ∈ cs := by
  intro cs
  induction cs with
  | nil => intro h; simp [splitOnChar] at h
  | cons c cs ih =>
    intro h
    by_cases hc : c = sep
    · simp [hc]
    · right
      apply ih
      unfold splitOnChar at h
      rw [if_neg hc] at h
      rcases hrest : splitOnChar sep cs with _ | ⟨p, ps⟩
      · exact absurd hrest (splitOnChar_ne_nil sep cs)
      · rw [hrest] at h
        simpa using h

/-- C5, counterexample.  The file `"X;Y\na, b, c;2"` is semicolon-delimited
with two columns on every line (and two as a whole), yet its head holds as
many commas as semicolons (2 each), so the count-based sniff — which the
claim describes as "picking the first candidate separator yielding more
than one column" — selects `','`, not `';'`. -/
theorem C5_counterexample :
    ((splitOnChar '\n' ("X;Y\na, b, c;2").toList).all
      (fun line => decide (2 ≤ (splitOnChar ';' line).length)) = true) ∧
    2 ≤ (splitOnChar ';' ("X;Y\na, b, c;2").toList).length ∧
    default_sep ("X;Y\na, b, c;2").toList = ',' := by
  refine ⟨by decide, by decide, by decide⟩

/-- C5, amended.  The loaders do not probe candidate separators for column
counts; they pick `';'` exactly when the first 4096 characters of the file
contain strictly more semicolons than commas.  In particular a
semicolon-delimited file (at least 2 `';'`-separated fields) containing no
comma in its head is loaded with `';'`. -/
theorem C5_detect :
    (∀ cs : List Char,
      (default_sep cs = ';' ↔ (cs.take 4096).count ',' < (cs.take 4096).count ';')) ∧
    (∀ cs : List Char, cs.length ≤ 4096 → 2 ≤ (splitOnChar ';' cs).length →
      cs.count ',' = 0 → default_sep cs = ';') := by
  constructor
  · intro cs
    unfold default_sep
    constructor
    · intro h
      by_contra hcon
      rw [if_neg hcon] at h
      exact absurd h (by decide)
    · intro h
      rw [if_pos h]
  · intro cs hlen hsplit hcomma
    have htake : cs.take 4096 = cs := List.take_of_length_le hlen
    have hmem : ';' ∈ cs := mem_of_two_le_splitOnChar ';' cs hsplit
    have hpos : 0 < cs.count ';' := List.count_pos_iff.mpr hmem
    unfold default_sep
    rw [htake]
    show (if List.count ',' cs < List.count ';' cs then ';' else ',') = ';'
    rw [hcomma, if_pos hpos]

/-- C5 witness: the amended sufficient condition at the concrete
semicolon-delimited header `"A;B"`. -/
theorem C5_detect_witness : default_sep ("A;B").toList = ';' :=
  C5_detect.2 ("A;B").toList (by decide) (by decide) (by decide)

/-! ## C7 — monthly aggregation and DEX dominance (app.py 198–209) -/

/-- A row of `volume_category.csv` after loading: `MONTH` (encoded on the
chronological key `year*100 + month`, as timestamps are totally ordered),
`CATEGORY` and `VOLUME_USD_BILLIONS`. -/
structure VolRow where
  month : ℕ
  category : String
  vol : ℚ
deriving DecidableEq, Repr

/-- Model of `df_volcat["MONTH"].max()` (app.py line 199): the largest month of the
table (`0` on an empty table; the code only runs on non-empty tables). -/
def latest_month (t : List VolRow) : ℕ := (t.map VolRow.month).foldr max 0

/-- Model of `df.groupby("MONTH")["VOLUME_USD_BILLIONS"].sum()` evaluated at month
`m`. -/
def monthGroupSum (t : List VolRow) (m : ℕ) : ℚ :=
  ((t.filter (fun r => r.month == m)).map VolRow.vol).sum

/-- KPI `dex_share` (app.py 205–208): restrict to the latest month, then
`100 * (sum over CATEGORY == "DEX Trading") / (total sum)` if the total is
truthy (non-zero), else `np.nan` (modelled as `none`). -/
def dex_share (t : List VolRow) : Option ℚ :=
  let d := t.filter (fun r => r.month == latest_month t)
  let total := (d.map VolRow.vol).sum
  if total = 0 then none
  else some (100 * ((d.filter (fun r => r.category == "DEX Trading")).map VolRow.vol).sum / total)

/-! ## C8 — share-percent KPI (app.py 205–208 and 291–298) -/

/-- Section-1 share pattern (app.py 205–208) over labelled values:
`100 * subset_sum / total_sum if total_sum else np.nan` (Python float
truthiness: any non-zero total takes the formula branch). -/
def share1 (rows : List (String × ℚ)) (key : String) : Option ℚ :=
  let total := (rows.map Prod.snd).sum
  if total = 0 then none
  else some (100 * ((rows.filter (fun r => r.1 == key)).map Prod.snd).sum / total)

/-- Section-2 share pattern (app.py 291–298): `dex_share = np.nan;`
`if not d_last.empty and d_last[y_col].sum() > 0: dex_share = 100 * subset / total`
— the formula branch requires a strictly positive total. -/
def share2 (rows : List (String × ℚ)) (key : String) : Option ℚ :=
  let total := (rows.map Prod.snd).sum
  if rows.isEmpty = false ∧ 0 < total then
    some (100 * ((rows.filter (fun r => r.1 == key)).map Prod.snd).sum / total)
  else none

/-! ## C7 theorems -/

/-- C7, counterexample.  The claim's scenario labels the rows with
category `"DEX"`, but the code's dominance KPI filters on the exact label
`"DEX Trading"` (app.py 206); on the claimed rows the DEX dominance for
the latest month is therefore `0%`, not `100%`. -/
theorem C7_counterexample :
    dex_share [⟨202506, "DEX", 10⟩, ⟨202506, "Lending", 5⟩, ⟨202507, "DEX", 12⟩] ≠
      some 100 ∧
    dex_share [⟨202506, "DEX", 10⟩, ⟨202506, "Lending", 5⟩, ⟨202507, "DEX", 12⟩] =
      some 0 := by
  have h : dex_share [⟨202506, "DEX", 10⟩, ⟨202506, "Lending", 5⟩, ⟨202507, "DEX", 12⟩] =
      some 0 := by
    simp [dex_share, latest_month]
  refine ⟨?_, h⟩
  rw [h]
  intro hcon
  exact absurd (Option.some.inj hcon) (by norm_num)

/-- C7, amended.  With the category labels the code actually matches
(`"DEX Trading"` for the DEX rows), the end-to-end scenario holds: the
2025-06 group-by sum is `15`, the latest month is `max(MONTH) = 2025-07`,
and the DEX dominance of that month is `100%`.  Group sums and the latest
month are invariant under permutation of the input rows (aggregation
order is irrelevant). -/
theorem C7_pipeline :
    monthGroupSum [⟨202506, "DEX Trading", 10⟩, ⟨202506, "Lending", 5⟩,
      ⟨202507, "DEX Trading", 12⟩] 202506 = 15 ∧
    latest_month [⟨202506, "DEX Trading", 10⟩, ⟨202506, "Lending", 5⟩,
      ⟨202507, "DEX Trading", 12⟩] = 202507 ∧
    dex_share [⟨202506, "DEX Trading", 10⟩, ⟨202506, "Lending", 5⟩,
      ⟨202507, "DEX Trading", 12⟩] = some 100 ∧
    (∀ t₁ t₂ : List VolRow, t₁.Perm t₂ →
      (∀ m, monthGroupSum t₁ m = monthGroupSum t₂ m) ∧ latest_month t₁ = latest_month t₂) := by
  refine ⟨?_, by decide, ?_, ?_⟩
  · simp only [monthGroupSum, List.filter_cons, List.filter_nil]
    norm_num
  · simp only [dex_share, latest_month, List.map_cons, List.map_nil,
      List.filter_cons, List.filter_nil]
    norm_num
  · intro t₁ t₂ hperm
    constructor
    · intro m
      unfold monthGroupSum
      exact ((hperm.filter _).map VolRow.vol).sum_eq
    · unfold latest_month
      exact @List.Perm.foldr_eq _ _ _ _ _ ⟨fun a b c => max_left_comm a b c⟩
        (hperm.map VolRow.month) 0

/-- C7 witness: permutation invariance instantiated at a transposed
two-row table. -/
theorem C7_pipeline_witness :
    monthGroupSum [⟨202506, "A", 1⟩, ⟨202507, "B", 2⟩] 202506 =
      monthGroupSum [⟨202507, "B", 2⟩, ⟨202506, "A", 1⟩] 202506 ∧
    latest_month [⟨202506, "A", 1⟩, ⟨202507, "B", 2⟩] =
      latest_month [⟨202507, "B", 2⟩, ⟨202506, "A", 1⟩] :=
  ⟨(C7_pipeline.2.2.2 _ _ (List.Perm.swap _ _ _)).1 202506,
   (C7_pipeline.2.2.2 _ _ (List.Perm.swap _ _ _)).2⟩

/-! ## C8 theorems -/

/-- C8, counterexample.  The claim says the share KPI equals
`(subset/total) × 100` for every grouping with non-zero total.  The
section-2 pattern requires a strictly positive total: on the grouping
`[("X", −5)]` (total `−5 ≠ 0`) it yields `NaN` where the claim demands
`0`; the section-1 pattern does follow the formula there. -/
theorem C8_counterexample :
    share2 [("X", -5)] "DEX Trading" = none ∧
    ((-5 : ℚ) ≠ 0) ∧
    share1 [("X", -5)] "DEX Trading" = some 0 := by
  refine ⟨?_, by norm_num, ?_⟩
  · simp only [share2, List.map_cons, List.map_nil]
    norm_num
  · simp [share1]

/-- C8, amended.  The section-1 share equals `(subset/total) × 100`
whenever the total is non-zero and is `NaN` when the total is `0` (in
particular at `0/0`); the section-2 share equals the formula only for a
non-empty grouping with strictly positive total and is `NaN` whenever the
total is `≤ 0` (again covering `0/0`).  `NaN` is a value, never an
exception. -/
theorem C8_share :
    (∀ (rows : List (String × ℚ)) (key : String), (rows.map Prod.snd).sum ≠ 0 →
      share1 rows key =
        some ((((rows.filter (fun r => r.1 == key)).map Prod.snd).sum /
          (rows.map Prod.snd).sum) * 100)) ∧
    (∀ (rows : List (String × ℚ)) (key : String), (rows.map Prod.snd).sum = 0 →
      share1 rows key = none) ∧
    (∀ (rows : List (String × ℚ)) (key : String), rows ≠ [] →
      0 < (rows.map Prod.snd).sum →
      share2 rows key =
        some ((((rows.filter (fun r => r.1 == key)).map Prod.snd).sum /
          (rows.map Prod.snd).sum) * 100)) ∧
    (∀ (rows : List (String × ℚ)) (key : String), (rows.map Prod.snd).sum ≤ 0 →
      share2 rows key = none) := by
  refine ⟨?_, ?_, ?_, ?_⟩
  · intro rows key h
    simp only [share1, if_neg h]
    rw [mul_comm, div_mul_eq_mul_div]
  · intro rows key h
    simp only [share1, if_pos h]
  · intro rows key hne hpos
    have hemp : rows.isEmpty = false := by
      cases rows with
      | nil => exact absurd rfl hne
      | cons a l => rfl
    have hand : rows.isEmpty = false ∧ 0 < (rows.map Prod.snd).sum := ⟨hemp, hpos⟩
    simp only [share2, if_pos hand]
    rw [mul_comm, div_mul_eq_mul_div]
  · intro rows key h
    have : ¬(rows.isEmpty = false ∧ 0 < (rows.map Prod.snd).sum) := by
      rintro ⟨-, hpos⟩
      exact absurd h (not_le.mpr hpos)
    simp only [share2, if_neg this]

/-- C8 witness: the amended share behavior at the spec-style grouping
`[("DEX Trading", 12)]` (share 100%) and at the `0/0` grouping (NaN). -/
theorem C8_share_witness :
    share1 [("DEX Trading", 12)] "DEX Trading" = some ((12 / 12) * 100) ∧
    share1 [] "DEX Trading" = none ∧
    share2 [("DEX Trading", 12)] "DEX Trading" = some ((12 / 12) * 100) ∧
    share2 [] "DEX Trading" = none := by
  refine ⟨?_, C8_share.2.1 [] "DEX Trading" rfl, ?_, C8_share.2.2.2 [] "DEX Trading" (by norm_num)⟩
  · have h := C8_share.1 [("DEX Trading", 12)] "DEX Trading" (by norm_num)
    rw [h]
    norm_num
  · have h := C8_share.2.2.1 [("DEX Trading", 12)] "DEX Trading" (by simp) (by norm_num)
    rw [h]
    norm_num

/-! ## C9 — `load_active_activity` (app.py 146–186) -/

/-- Python `str.strip` whitespace class (the characters Python strips by
default). -/
def isSpaceChar (c : Char) : Bool :=
  c = ' ' || c = '\t' || c = '\n' || c = '\r' || c = '\x0b' || c = '\x0c'

/-- Drop leading whitespace. -/
def stripLeft (cs : List Char) : List Char := cs.dropWhile isSpaceChar

/-- Drop trailing whitespace. -/
def stripRight (cs : List Char) : List Char :=
  (cs.reverse.dropWhile isSpaceChar).reverse

/-- Python `str.strip()`: drop leading and trailing whitespace. -/
def pyStrip (cs : List Char) : List Char := stripRight (stripLeft cs)

/-- Python `str.strip()` on a column name. -/
def stripColName (c : String) : String := String.mk (pyStrip c.data)

/-- The `rename_map` of app.py 164–169. -/
def renameActCol (c : String) : String :=
  if c = "Month" then "MONTH"
  else if c = "Sector" then "SECTOR"
  else if c = "Avg_Daily_Active_Addresses" then "AVG_DAILY_ACTIVE_ADDRESSES"
  else if c = "Transactions" then "TRANSACTIONS"
  else c

/-- The `expected` column set of app.py line 172 (as a list). -/
def expectedActCols : List String :=
  ["MONTH", "SECTOR", "AVG_DAILY_ACTIVE_ADDRESSES", "TRANSACTIONS"]

/-- Column normalization of app.py 163–170: strip every header, then apply
the rename map. -/
def normActCols (cols : List String) : List String :=
  (cols.map stripColName).map renameActCol

/-- Test that `missing = expected - set(df.columns)` is empty (app.py 172–176). -/
def actColsOk (cols : List String) : Bool :=
  expectedActCols.all (fun e => (normActCols cols).contains e)

/-- An input row of `active_addresses.csv`, carrying the cells of the four
expected columns.  `month` and `sector` are the raw strings; the two
numeric cells are carried as the result of `pd.to_numeric(·, errors=
"coerce")` (a number or `NaN`), whose string-to-float grammar is not
itself under test here. -/
structure RawActRow where
  month : String
  sector : String
  addresses : Option ℚ
  transactions : Option ℚ
deriving DecidableEq, Repr

/-- An output row: `MONTH` parsed (rows with unparseable months were
dropped), `SECTOR` stripped (never missing: `astype(str)` makes it a
string), numerics number-or-`NaN`. -/
structure ActRow where
  month : Date
  sector : List Char
  addresses : Option ℚ
  transactions : Option ℚ
deriving DecidableEq, Repr

/-- The parsed CSV as handed to the column/row pipeline. -/
structure ActCsv where
  cols : List String
  rows : List RawActRow
deriving DecidableEq, Repr

/-- The loader's result table. -/
structure ActTable where
  cols : List String
  rows : List ActRow
deriving DecidableEq, Repr

/-- Sort key of `df.sort_values(["MONTH", "SECTOR"])`: lexicographic on
(chronological month key, sector string); pandas compares strings
lexicographically by code point, as the `List Char` order does. -/
def actKey (x : ActRow) : ℕ ×ₗ (List Char) := toLex (dateKey x.month, x.sector)

/-- Row order used by `sort_values(["MONTH", "SECTOR"])`. -/
def actRowLe (x y : ActRow) : Prop := actKey x ≤ actKey y

instance : DecidableRel actRowLe := fun x y =>
  inferInstanceAs (Decidable (actKey x ≤ actKey y))

instance : IsTrans ActRow actRowLe := ⟨fun _ _ _ h1 h2 => le_trans h1 h2⟩

instance : IsTotal ActRow actRowLe := ⟨fun a b => le_total (actKey a) (actKey b)⟩

/-- Loader `load_active_activity` (app.py 146–186) after the delimiter sniff and
parse: strip and rename the headers; if any expected column is missing,
return an empty table on exactly the expected columns.  Otherwise parse
`MONTH` with `format="%Y-%m", errors="coerce"`, strip `SECTOR`
(`astype(str).str.strip()`), keep the coerced numerics, drop rows whose
`MONTH` failed to parse (`dropna(subset=["MONTH","SECTOR"])`; `SECTOR` is
never `NaN` after `astype(str)`), then stably sort by `(MONTH, SECTOR)`
ascending and reset the index. -/
def load_active_activity (inp : ActCsv) : ActTable :=
  let cols := normActCols inp.cols
  if actColsOk inp.cols then
    let parsed := inp.rows.filterMap (fun r =>
      (parseYM r.month).map
        (fun dt => ActRow.mk dt (pyStrip r.sector.data) r.addresses r.transactions))
    ⟨cols, List.insertionSort actRowLe parsed⟩
  else ⟨expectedActCols, []⟩

/-! ## C9 theorems -/

/-- Dropping a prefix by a predicate is idempotent. -/
theorem dropWhile_idem (p : Char → Bool) :
    ∀ l : List Char, (l.dropWhile p).dropWhile p = l.dropWhile p := by
  intro l
  induction l with
  | nil => rfl
  | cons a l ih =>
    by_cases h : p a
    · simp [List.dropWhile_cons, h, ih]
    · simp [List.dropWhile_cons, h]

/-- The function `stripRight` only removes characters from the end. -/
theorem stripRight_isInitial (l : List Char) : stripRight l <+: l := by
  unfold stripRight
  have hd : l.reverse.dropWhile isSpaceChar <:+ l.reverse :=
    List.dropWhile_suffix isSpaceChar
  exact List.reverse_suffix.mp (by rw [List.reverse_reverse]; exact hd)

/-- The head surviving `dropWhile` fails the predicate. -/
theorem head?_dropWhile_false (p : Char → Bool) (l : List Char) {a : Char}
    (h : (l.dropWhile p).head? = some a) : p a = false := by
  have hm := List.head?_dropWhile_not p l
  rw [h] at hm
  exact hm

/-- A left-stripped list stays left-stripped after right-stripping. -/
theorem stripLeft_stripRight_stripLeft (cs : List Char) :
    stripLeft (stripRight (stripLeft cs)) = stripRight (stripLeft cs) := by
  rcases hsr : stripRight (stripLeft cs) with _ | ⟨a, t⟩
  · rfl
  · have hpre : stripRight (stripLeft cs) <+: stripLeft cs :=
      stripRight_isInitial (stripLeft cs)
    rw [hsr] at hpre
    rcases hpre with ⟨u, hu⟩
    have hhead : (stripLeft cs).head? = some a := by
      rw [← hu]
      rfl
    have ha : isSpaceChar a = false := head?_dropWhile_false isSpaceChar cs hhead
    unfold stripLeft
    rw [List.dropWhile_cons, ha]
    simp

/-- The function `stripRight` is idempotent. -/
theorem stripRight_idem (l : List Char) : stripRight (stripRight l) = stripRight l := by
  unfold stripRight
  rw [List.reverse_reverse, dropWhile_idem]

/-- The function `pyStrip` is idempotent: its output is whitespace-trimmed. -/
theorem pyStrip_idem (cs : List Char) : pyStrip (pyStrip cs) = pyStrip cs := by
  unfold pyStrip
  rw [stripLeft_stripRight_stripLeft, stripRight_idem]

/-- C9 (confirmed).  When all four expected columns are present after
stripping and renaming, the loader's output is sorted ascending by
`(MONTH, SECTOR)`, keeps all (normalized) columns, and every output row
has a successfully parsed month, a whitespace-trimmed sector and the
numeric cells (number-or-NaN) of some input row; rows with unparseable
months are dropped, so no output row has a missing `MONTH` or `SECTOR`.
When an expected column is missing, the loader returns the empty table on
exactly the expected columns. -/
theorem C9_load_invariants :
    (∀ inp : ActCsv, actColsOk inp.cols = true →
      List.Sorted actRowLe (load_active_activity inp).rows ∧
      (load_active_activity inp).cols = normActCols inp.cols ∧
      (∀ r ∈ (load_active_activity inp).rows,
        pyStrip r.sector = r.sector ∧
        ∃ raw ∈ inp.rows, parseYM raw.month = some r.month ∧
          r.sector = pyStrip raw.sector.data ∧
          r.addresses = raw.addresses ∧ r.transactions = raw.transactions)) ∧
    (∀ inp : ActCsv, actColsOk inp.cols = false →
      load_active_activity inp = ⟨expectedActCols, []⟩) := by
  constructor
  · intro inp hok
    have hload : load_active_activity inp =
        ⟨normActCols inp.cols,
          List.insertionSort actRowLe (inp.rows.filterMap (fun r =>
            (parseYM r.month).map
              (fun dt => ActRow.mk dt (pyStrip r.sector.data) r.addresses r.transactions)))⟩ := by
      unfold load_active_activity
      rw [if_pos hok]
    refine ⟨?_, ?_, ?_⟩
    · rw [hload]
      exact List.sorted_insertionSort actRowLe _
    · rw [hload]
    · intro r hr
      rw [hload] at hr
      have hmem : r ∈ inp.rows.filterMap (fun raw =>
          (parseYM raw.month).map
            (fun dt => ActRow.mk dt (pyStrip raw.sector.data) raw.addresses raw.transactions)) :=
        (List.perm_insertionSort actRowLe _).mem_iff.mp hr
      rcases List.mem_filterMap.mp hmem with ⟨raw, hraw, hsome⟩
      rcases Option.map_eq_some'.mp hsome with ⟨dt, hdt, hmk⟩
      subst hmk
      exact ⟨pyStrip_idem raw.sector.data,
        raw, hraw, by rw [hdt], rfl, rfl, rfl⟩
  · intro inp hbad
    unfold load_active_activity
    rw [if_neg (by rw [hbad]; exact Bool.false_ne_true)]

/-- C9 witness: the invariants at a concrete file whose headers need
renaming, with an unsorted pair of rows, a padded sector and a row whose
month fails to parse. -/
theorem C9_load_invariants_witness :
    List.Sorted actRowLe (load_active_activity
      ⟨["Month", "Sector", "Avg_Daily_Active_Addresses", "Transactions"],
        [⟨"2025-07", " DEX ", some 5, some 7⟩,
         ⟨"2025-06", "X", some 1, none⟩,
         ⟨"bad-month", "Y", none, none⟩]⟩).rows ∧
    load_active_activity ⟨["Month", "Sector"], []⟩ = ⟨expectedActCols, []⟩ :=
  ⟨(C9_load_invariants.1 _ (by decide)).1,
   C9_load_invariants.2 ⟨["Month", "Sector"], []⟩ (by decide)⟩

/-! ## C10 — rates direction and monthly probability normalization
(app.py 1036–1061) -/

/-- A row of `df_rates` after the merge with the Fed-funds history:
month key, bucket midpoint in bps (`MIDPOINT_BPS`, `NaN` when bounds were
missing), merged `FEDFUNDS` (percent; `NaN` when the month is absent from
the history) and the (possibly rescaled) probability `PROB`. -/
structure RateRow where
  month : ℕ
  midpoint : Option ℚ
  fedfunds : Option ℚ
  prob : Option ℚ
deriving DecidableEq, Repr

/-- Row direction (app.py 1039–1042):
`np.where(MIDPOINT_BPS < FEDFUNDS*100 - 5, "Cut",
  np.where(MIDPOINT_BPS > FEDFUNDS*100 + 5, "Hike", "Hold"))`.
A comparison against `NaN` is false in numpy, so rows with a missing
midpoint or Fed-funds rate fall through to `"Hold"`. -/
def dirOf (r : RateRow) : String :=
  match r.midpoint, r.fedfunds with
  | some m, some f =>
    if m < f * 100 - 5 then "Cut"
    else if f * 100 + 5 < m then "Hike"
    else "Hold"
  | _, _ => "Hold"

/-- A row's contribution to a pandas `groupby(...)["PROB"].sum()`:
`NaN` cells are skipped, i.e. contribute `0`. -/
def probVal (r : RateRow) : ℚ := r.prob.getD 0

/-- Sum `prob_by_dir` (app.py 1046): per-(month, direction) probability sum. -/
def groupProb (rows : List RateRow) (mth : ℕ) (d : String) : ℚ :=
  ((rows.filter (fun r => r.month == mth && dirOf r == d)).map probVal).sum

/-- Total `sum_m` (app.py 1048): the month's total raw probability. -/
def monthProbTotal (rows : List RateRow) (mth : ℕ) : ℚ :=
  ((rows.filter (fun r => r.month == mth)).map probVal).sum

/-- Value `PROB_NORM` (app.py 1049): `np.where(sum_m > 0, PROB/sum_m, NaN)` for
an existing (month, direction) group. -/
def probNorm (rows : List RateRow) (mth : ℕ) (d : String) : Option ℚ :=
  if 0 < monthProbTotal rows mth then some (groupProb rows mth d / monthProbTotal rows mth)
  else none

/-- The pivoted `monthly_dir` cell (app.py 1050 and 1057–1059): pivoting
`prob_by_dir` on (MONTH × DIR) leaves `NaN` at a (month, direction) pair
with no rows when the direction occurs in some other month; a direction
that occurs nowhere is added afterwards as a constant-`0.0` column. -/
def monthlyDirVal (rows : List RateRow) (mth : ℕ) (d : String) : Option ℚ :=
  if rows.any (fun r => dirOf r == d) then
    (if rows.any (fun r => r.month == mth && dirOf r == d) then probNorm rows mth d
     else none)
  else some 0

/-! ## C10 theorems -/

/-- Each row lands in exactly one of the three direction buckets, so the
three per-direction sums partition the month total. -/
theorem groupProb_partition (rows : List RateRow) (mth : ℕ) :
    groupProb rows mth "Cut" + groupProb rows mth "Hold" + groupProb rows mth "Hike" =
      monthProbTotal rows mth := by
  unfold groupProb monthProbTotal
  induction rows with
  | nil => simp
  | cons a rows ih =>
    have htri : dirOf a = "Cut" ∨ dirOf a = "Hold" ∨ dirOf a = "Hike" := by
      unfold dirOf
      rcases a.midpoint with _ | m
      · simp
      · rcases a.fedfunds with _ | f
        · simp
        · by_cases h1 : m < f * 100 - 5
          · simp [h1]
          · by_cases h2 : f * 100 + 5 < m
            · simp [h1, h2]
            · simp [h1, h2]
    by_cases hm : a.month = mth
    · rcases htri with hd | hd | hd <;>
        simp only [List.filter_cons, hm, hd] <;> simp <;> linarith [ih]
    · simp only [List.filter_cons]
      have : (a.month == mth) = false := by
        exact beq_eq_false_iff_ne.mpr hm
      simp [this, ih]

/-- C10, counterexample.  Normalized "probabilities" need not be
non-negative (a raw `PROB` can be negative after the numeric coercion of
accounting-style strings): for month 1 with rows Cut `-1/2` and Hike `1`
the month total is `1/2 > 0` and the normalized Cut probability is `-1`.
And the pivoted table need not have all three values for a month: when
"Hike" occurs only in month 2, the month-1 "Hike" cell is `NaN`, so the
three month-1 values cannot sum to 1. -/
theorem C10_counterexample :
    monthlyDirVal [⟨1, some 0, some 4, some (-(1 : ℚ) / 2)⟩,
      ⟨1, some 1000, some 4, some 1⟩] 1 "Cut" = some (-1) ∧
    monthlyDirVal [⟨1, some 0, some 4, some 1⟩,
      ⟨2, some 1000, some 4, some 1⟩] 1 "Hike" = none := by
  constructor
  · have hcut : dirOf ⟨1, some 0, some 4, some (-(1 : ℚ) / 2)⟩ = "Cut" := by
      unfold dirOf
      norm_num
    have hhike : dirOf ⟨1, some 1000, some 4, some (1 : ℚ)⟩ = "Hike" := by
      unfold dirOf
      norm_num
    simp only [monthlyDirVal, probNorm, groupProb, monthProbTotal, List.any_cons,
      List.any_nil, List.filter_cons, List.filter_nil, hcut, hhike]
    norm_num [probVal]
    rw [if_neg (by decide : ¬("Hike" = "Cut"))]
    norm_num
  · have hcut : dirOf ⟨1, some 0, some 4, some (1 : ℚ)⟩ = "Cut" := by
      unfold dirOf
      norm_num
    have hhike : dirOf ⟨2, some 1000, some 4, some (1 : ℚ)⟩ = "Hike" := by
      unfold dirOf
      norm_num
    simp only [monthlyDirVal, List.any_cons, List.any_nil, hcut, hhike]
    simp

/-- C10, amended.  Every row's direction is one of Cut/Hold/Hike, with
Hold whenever the bucket midpoint is within ±5 bps of the Fed-funds rate
in bps.  For every month whose raw probability sum is positive, the
normalized per-direction values — counting a direction with no rows that
month as 0 — sum to exactly 1, and each of them is non-negative provided
the raw probabilities are non-negative.  (In the pivoted table itself a
direction absent from such a month but present elsewhere appears as NaN,
not 0.) -/
theorem C10_rates :
    (∀ r : RateRow, dirOf r = "Cut" ∨ dirOf r = "Hold" ∨ dirOf r = "Hike") ∧
    (∀ (r : RateRow) (m f : ℚ), r.midpoint = some m → r.fedfunds = some f →
      |m - f * 100| ≤ 5 → dirOf r = "Hold") ∧
    (∀ (rows : List RateRow) (mth : ℕ), 0 < monthProbTotal rows mth →
      groupProb rows mth "Cut" / monthProbTotal rows mth +
        groupProb rows mth "Hold" / monthProbTotal rows mth +
        groupProb rows mth "Hike" / monthProbTotal rows mth = 1) ∧
    (∀ (rows : List RateRow) (mth : ℕ) (d : String),
      (∀ r ∈ rows, 0 ≤ probVal r) → 0 < monthProbTotal rows mth →
      0 ≤ groupProb rows mth d / monthProbTotal rows mth) := by
  refine ⟨?_, ?_, ?_, ?_⟩
  · intro r
    unfold dirOf
    rcases r.midpoint with _ | m
    · simp
    · rcases r.fedfunds with _ | f
      · simp
      · by_cases h1 : m < f * 100 - 5
        · simp [h1]
        · by_cases h2 : f * 100 + 5 < m
          · simp [h1, h2]
          · simp [h1, h2]
  · intro r m f hm hf habs
    rcases abs_le.mp habs with ⟨hlo, hhi⟩
    unfold dirOf
    rw [hm, hf]
    show (if m < f * 100 - 5 then "Cut" else if f * 100 + 5 < m then "Hike" else "Hold") =
      "Hold"
    rw [if_neg (by linarith), if_neg (by linarith)]
  · intro rows mth hpos
    rw [div_add_div_same, div_add_div_same, groupProb_partition]
    exact div_self hpos.ne'
  · intro rows mth d hnn hpos
    apply div_nonneg _ hpos.le
    apply List.sum_nonneg
    intro x hx
    rcases List.mem_map.mp hx with ⟨r, hr, rfl⟩
    exact hnn r (List.mem_of_mem_filter hr)

/-- C10 witness: the amended statements at a concrete month with Cut
probability `3/4` and Hike probability `1/4`: the normalized values sum
to 1 and the Cut value is non-negative; the Hold bound instantiated at a
midpoint 3 bps above the Fed-funds rate. -/
theorem C10_rates_witness :
    groupProb [⟨1, some 0, some 4, some (3 / 4)⟩, ⟨1, some 1000, some 4, some (1 / 4)⟩] 1 "Cut" /
        monthProbTotal [⟨1, some 0, some 4, some (3 / 4)⟩, ⟨1, some 1000, some 4, some (1 / 4)⟩] 1 +
      groupProb [⟨1, some 0, some 4, some (3 / 4)⟩, ⟨1, some 1000, some 4, some (1 / 4)⟩] 1 "Hold" /
        monthProbTotal [⟨1, some 0, some 4, some (3 / 4)⟩, ⟨1, some 1000, some 4, some (1 / 4)⟩] 1 +
      groupProb [⟨1, some 0, some 4, some (3 / 4)⟩, ⟨1, some 1000, some 4, some (1 / 4)⟩] 1 "Hike" /
        monthProbTotal [⟨1, some 0, some 4, some (3 / 4)⟩, ⟨1, some 1000, some 4, some (1 / 4)⟩] 1 = 1 ∧
    0 ≤ groupProb [⟨1, some 0, some 4, some (3 / 4)⟩, ⟨1, some 1000, some 4, some (1 / 4)⟩] 1 "Cut" /
        monthProbTotal [⟨1, some 0, some 4, some (3 / 4)⟩, ⟨1, some 1000, some 4, some (1 / 4)⟩] 1 ∧
    dirOf ⟨1, some 403, some 4, some 1⟩ = "Hold" := by
  have hpos : 0 < monthProbTotal
      [⟨1, some 0, some 4, some (3 / 4)⟩, ⟨1, some 1000, some 4, some (1 / 4)⟩] 1 := by
    simp only [monthProbTotal, List.filter_cons, List.filter_nil]
    norm_num [probVal]
  refine ⟨C10_rates.2.2.1 _ 1 hpos, C10_rates.2.2.2 _ 1 "Cut" ?_ hpos,
    C10_rates.2.1 ⟨1, some 403, some 4, some 1⟩ 403 4 rfl rfl (by norm_num)⟩
  intro r hr
  simp only [List.mem_cons, List.not_mem_nil, or_false] at hr
  rcases hr with rfl | rfl <;> norm_num [probVal]

end EthFlows
